import Mathlib

/-!
Shallow embedding of `src/file_manager.py`, a two-pane terminal file manager.

Filesystem paths are lists of name components measured from the filesystem
root (`[]` models `/`).  The filesystem itself is a finite tree of
directories and files; every fallible OS call becomes an `Option`/`Except`
value, and the mutating calls are explicit state passing on the tree.
-/

/-- A filesystem path: the list of name components below the root.
`[]` is the root `/`. -/
abbrev FsPath := List String

/-- `pathlib.Path.parent`: drop the last component; the parent of the root
is the root itself. -/
def parent (p : FsPath) : FsPath := p.dropLast

/-- `pathlib.Path.name`: the final component, `""` for the root
(`Path("/").name == ""`). -/
def nameOf (p : FsPath) : String := (p.getLast?).getD ""

/-- Render a path the way `str(Path(...))` does for absolute paths. -/
def pathStr (p : FsPath) : String := "/" ++ String.intercalate "/" p

/-- Boolean path-prefix test (`p` is `q` or an ancestor of `q`). -/
def isPfx : FsPath → FsPath → Bool
  | [], _ => true
  | _ :: _, [] => false
  | a :: as, b :: bs => a == b && isPfx as bs

/-- A filesystem node: a regular file with its content, or a directory
with a named list of children. -/
inductive Node where
  | file (content : String)
  | dir (children : List (String × Node))

/-- Look a name up in a directory's child list (first binding wins). -/
def lookupChild : List (String × Node) → String → Option Node
  | [], _ => none
  | (a, n) :: rest, b => if a = b then some n else lookupChild rest b

/-- Resolve a path inside a filesystem tree. -/
def lookup : FsPath → Node → Option Node
  | [], n => some n
  | _ :: _, .file _ => none
  | a :: rest, .dir cs =>
    match lookupChild cs a with
    | some c => lookup rest c
    | none => none

/-- Replace the first binding of a name in a child list (append when the
name is absent). -/
def setChild : List (String × Node) → String → Node → List (String × Node)
  | [], a, n => [(a, n)]
  | (b, m) :: rest, a, n => if b = a then (a, n) :: rest else (b, m) :: setChild rest a n

/-- Drop every binding of a name from a child list.  Real directory
listings never repeat a name, so this agrees with removing "the" entry. -/
def removeChild (cs : List (String × Node)) (a : String) : List (String × Node) :=
  cs.filter (fun e => e.1 != a)

/-- Insert a new node at a path that must not already exist.  When `mk` is
true, missing intermediate directories are created (the `os.makedirs`
behaviour used by `shutil.copytree`); when `mk` is false a missing parent
is an error (plain `os.rename` / `shutil.copy2` / `mkdir(parents=False)`).
Fails (`none`) when the target exists, when an intermediate component is a
regular file, or (for `mk = false`) when the parent is missing. -/
def insertNew (mk : Bool) : FsPath → Node → Node → Option Node
  | [], _, _ => none
  | _ :: _, .file _, _ => none
  | [a], .dir cs, node =>
    match lookupChild cs a with
    | some _ => none
    | none => some (.dir (cs ++ [(a, node)]))
  | a :: b :: rest, .dir cs, node =>
    match lookupChild cs a with
    | some c => (insertNew mk (b :: rest) c node).map (fun cNew => .dir (setChild cs a cNew))
    | none =>
      if mk then
        (insertNew mk (b :: rest) (.dir []) node).map (fun cNew => .dir (cs ++ [(a, cNew)]))
      else none

/-- Remove the subtree at a path (`shutil.rmtree` / `unlink`): missing
paths are left untouched, and removal at the root is the identity (no
operation in the program ever removes the root). -/
def removeAt : FsPath → Node → Node
  | [], n => n
  | [a], .dir cs => .dir (removeChild cs a)
  | _ :: _, n@(.file _) => n
  | a :: b :: rest, .dir cs =>
    match lookupChild cs a with
    | some c => .dir (setChild cs a (removeAt (b :: rest) c))
    | none => .dir cs

/-- `Path.is_file()`: true exactly for an existing regular file. -/
def isFile (fs : Node) (p : FsPath) : Bool :=
  match lookup p fs with
  | some (.file _) => true
  | _ => false

/-- `Path.is_dir()`: true exactly for an existing directory. -/
def isDir (fs : Node) (p : FsPath) : Bool :=
  match lookup p fs with
  | some (.dir _) => true
  | _ => false

/-- Zero-pad a number to two digits (`%H`, `%M`, `%m`, `%d`). -/
def pad2 (n : Nat) : String := if n < 10 then "0" ++ toString n else toString n

/-- Zero-pad a number to four digits (`%Y`). -/
def pad4 (n : Nat) : String :=
  if n < 10 then "000" ++ toString n
  else if n < 100 then "00" ++ toString n
  else if n < 1000 then "0" ++ toString n
  else toString n

/-- Gregorian date from days since the Unix epoch (the standard
civil-from-days computation). -/
def civilFromDays (z0 : Int) : Int × Nat × Nat :=
  let z := z0 + 719468
  let era := Int.fdiv z 146097
  let doe := (z - era * 146097).toNat
  let yoe := (doe - doe / 1460 + doe / 36524 - doe / 146096) / 365
  let y := (yoe : Int) + era * 400
  let doy := doe - (365 * yoe + yoe / 4 - yoe / 100)
  let mp := (5 * doy + 2) / 153
  let d := doy - (153 * mp + 2) / 5 + 1
  let m := if mp < 10 then mp + 3 else mp - 9
  (if m ≤ 2 then y + 1 else y, m, d)

/-- `datetime.fromtimestamp(ts).strftime("%Y-%m-%d %H:%M")`, modelled
with a fixed UTC offset. -/
def formatTime (ts : Int) : String :=
  let days := Int.fdiv ts 86400
  let secs := (ts - days * 86400).toNat
  let ymd := civilFromDays days
  pad4 ymd.1.toNat ++ "-" ++ pad2 ymd.2.1 ++ "-" ++ pad2 ymd.2.2 ++ " " ++
    pad2 (secs / 3600) ++ ":" ++ pad2 ((secs % 3600) / 60)

/-- The clause table of `stat.filemode`: one clause list per output
column; the first bit pattern fully contained in the mode selects the
character, `?` otherwise. -/
def filemodeTable : List (List (Nat × Char)) :=
  [[(40960, 'l'), (49152, 's'), (32768, '-'), (24576, 'b'), (16384, 'd'), (8192, 'c'), (4096, 'p')],
   [(256, 'r')], [(128, 'w')], [(2048 + 64, 's'), (2048, 'S'), (64, 'x')],
   [(32, 'r')], [(16, 'w')], [(1024 + 8, 's'), (1024, 'S'), (8, 'x')],
   [(4, 'r')], [(2, 'w')], [(512 + 1, 't'), (512, 'T'), (1, 'x')]]

def filemodeChar (mode : Nat) (clauses : List (Nat × Char)) : Char :=
  match clauses.find? (fun bc => mode &&& bc.1 == bc.1) with
  | some bc => bc.2
  | none => '?'

/-- `stat.filemode`: render mode bits as the usual ten-character string. -/
def filemode (mode : Nat) : String :=
  String.mk (filemodeTable.map (filemodeChar mode))

/-- Python format spec `:>n`: right-align in a field of `n` characters. -/
def rightAlign (w : Nat) (s : String) : String :=
  String.mk (List.replicate (w - s.length) ' ') ++ s

/-- The fields of `os.stat_result` that `format_entry` reads. -/
structure StatInfo where
  st_size : Nat
  st_mtime : Int
  st_mode : Nat

/-- `format_entry(path)` from `src/file_manager.py:35`.  The two OS
queries it makes are passed in explicitly: `isDirQ` models
`Path.is_dir()` (a total query: Python returns `False` on any OS error)
and `statQ` models `Path.stat()`, with `none` for a raised `OSError`.
The function is total: the `except OSError:` branch of the source is the
`none` case. -/
def format_entry (isDirQ : FsPath → Bool) (statQ : FsPath → Option StatInfo) (path : FsPath) :
    String :=
  if path = parent path then "[..]"
  else
    let name := nameOf path ++ (if isDirQ path then "/" else "")
    match statQ path with
    | some info =>
      let size := if isDirQ path then "<DIR>" else rightAlign 8 (toString info.st_size)
      let mtime := formatTime info.st_mtime
      let mode := filemode info.st_mode
      mode ++ " " ++ rightAlign 8 size ++ " " ++ mtime ++ " " ++ name
    | none =>
      "??????????" ++ " " ++ rightAlign 8 "?" ++ " " ++ "?" ++ " " ++ name

/-- `copy_or_move(src, dst_dir, move)` from `src/file_manager.py:55`,
with the filesystem threaded explicitly: the result of the call
(`Except` models a raised exception) together with the filesystem after
the call.  `shutil.move` is modelled as the rename it performs: it fails
when the source is missing, when the destination parent is missing, or
when it would move a directory below itself; `shutil.copytree` creates
missing intermediate directories (`os.makedirs`) while `shutil.copy2`
does not, and both snapshot the source before writing.  Every modelled
failure happens before any mutation, so the filesystem comes back
unchanged on every error. -/
def copy_or_move (fs : Node) (src dst_dir : FsPath) (move : Bool) : Except String FsPath × Node :=
  let dst := dst_dir ++ [nameOf src]
  if (lookup dst fs).isSome then
    (.error ("Destination already exists: " ++ pathStr dst), fs)
  else if move then
    if isPfx src dst then (.error ("Invalid move: " ++ pathStr dst), fs)
    else
      match lookup src fs with
      | none => (.error ("No such file or directory: " ++ pathStr src), fs)
      | some snap =>
        match insertNew false dst (removeAt src fs) snap with
        | none => (.error ("No such file or directory: " ++ pathStr dst_dir), fs)
        | some fsNew => (.ok dst, fsNew)
  else
    match lookup src fs with
    | none => (.error ("No such file or directory: " ++ pathStr src), fs)
    | some snap =>
      match snap with
      | .dir _ =>
        match insertNew true dst fs snap with
        | none => (.error ("Copy failed: " ++ pathStr dst), fs)
        | some fsNew => (.ok dst, fsNew)
      | .file _ =>
        match insertNew false dst fs snap with
        | none => (.error ("No such file or directory: " ++ pathStr dst_dir), fs)
        | some fsNew => (.ok dst, fsNew)

/-- `PaneState` from `src/file_manager.py:15`: one pane's directory,
cursor index and cached listing.  The cursor is an integer exactly as in
Python. -/
structure PaneState where
  path : FsPath
  cursor : Int := 0
  entries : List FsPath := []

/-- `max(0, cursor - 1)`: the `KEY_UP` transition (line 183). -/
def upCursor (c : Int) : Int := max 0 (c - 1)

/-- `min(len(entries) - 1, cursor + 1)`: the `KEY_DOWN` transition
(line 185). -/
def downCursor (len c : Int) : Int := min (len - 1) (c + 1)

/-- Lines 26–27 of `PaneState.refresh`: clamp the cursor when the
listing shrank below it. -/
def clampCursor (len c : Int) : Int := if c ≥ len then max 0 (len - 1) else c

/-- Lexicographic comparison of character lists by code point — how
Python compares strings. -/
def charsLe : List Char → List Char → Bool
  | [], _ => true
  | _ :: _, [] => false
  | a :: as, b :: bs =>
    if a.toNat < b.toNat then true
    else if b.toNat < a.toNat then false
    else charsLe as bs

/-- Python `str.__le__`: code-point lexicographic order. -/
def strLe (a b : String) : Bool := charsLe a.data b.data

/-- Python `str.lower()`, modelled characterwise. -/
def lowerStr (s : String) : String := String.mk (s.data.map Char.toLower)

/-- The Python sort key of `PaneState.refresh` (line 24):
`(p.is_file(), p.name.lower())`. -/
def entryKey (fs : Node) (p : FsPath) : Bool × String := (isFile fs p, lowerStr (nameOf p))

/-- Ordering of Python tuples `(bool, str)`: `False < True`, strings
compared lexicographically. -/
def keyLe (x y : Bool × String) : Bool :=
  if x.1 = y.1 then strLe x.2 y.2 else x.1 == false

/-- `PaneState.refresh` (line 21): canonicalise the pane path (the
identity here — model paths are already canonical absolute paths), list
the directory, sort by `(is_file, name.lower())`, insert the parent
sentinel at index 0, and clamp the cursor.  Python's `sorted` is a
stable sort by the key, modelled by insertion sort over the same key
order.  `iterdir` on a missing or non-directory path raises `OSError`:
the `.error` case. -/
def PaneState.refresh (fs : Node) (pane : PaneState) : Except String PaneState :=
  match lookup pane.path fs with
  | some (.dir cs) =>
    let items := cs.map (fun e => pane.path ++ [e.1])
    let sorted := items.insertionSort (fun a b => keyLe (entryKey fs a) (entryKey fs b) = true)
    let entries := parent pane.path :: sorted
    .ok { pane with entries := entries, cursor := clampCursor entries.length pane.cursor }
  | _ => .error ("Cannot list directory: " ++ pathStr pane.path)

/-- `PaneState.selected` (line 29).  In every reachable state the cursor
is a valid non-negative index; indexing is modelled with a default. -/
def PaneState.selected (pane : PaneState) : FsPath :=
  if pane.entries = [] then pane.path else pane.entries.getD pane.cursor.toNat pane.path

/-- The mutable state of the `FileManager` class (line 69): the two
panes, the active index, and the status line. -/
structure FileManager where
  panes : Fin 2 → PaneState
  active : Fin 2
  status : String

/-- `FileManager.other_index` (line 75): `1 - self.active`. -/
def other_index (m : FileManager) : Fin 2 := 1 - m.active

def activePane (m : FileManager) : PaneState := m.panes m.active

def setActivePane (m : FileManager) (p : PaneState) : FileManager :=
  { m with panes := Function.update m.panes m.active p }

/-- Python `str.strip()`: drop leading and trailing whitespace. -/
def strip (s : String) : String :=
  String.mk (((s.data.dropWhile Char.isWhitespace).reverse.dropWhile Char.isWhitespace).reverse)

/-- `FileManager.prompt` (line 82): read one line from the status row
and strip surrounding whitespace; the raw typed text is the argument. -/
def prompt (raw : String) : String := strip raw

/-- `FileManager.refresh` (line 78): refresh both panes in order. -/
def FileManager.refresh (fs : Node) (m : FileManager) : Except String FileManager := do
  let p0 ← PaneState.refresh fs (m.panes 0)
  let p1 ← PaneState.refresh fs (m.panes 1)
  pure { m with panes := fun i => if i = 0 then p0 else p1 }

/-- External-world inputs consumed while handling one event: the raw
text a prompt would read, and whether `subprocess.Popen` succeeds (with
the exception text when it does not). -/
structure Env where
  promptRaw : String
  openOk : Bool
  openErr : String

/-- `FileManager.open_entry` (line 92).  A failure to spawn the external
opener is swallowed inside this handler — it only sets the status — so
the handler is total. -/
def open_entry (m : FileManager) (fs : Node) (env : Env) (entry : FsPath) : FileManager :=
  if isDir fs entry then
    setActivePane m { activePane m with path := entry, cursor := 0 }
  else if env.openOk then { m with status := "Открывается: " ++ nameOf entry }
  else { m with status := "Не удалось открыть: " ++ env.openErr }

/-- `FileManager.delete_entry` (line 105).  `shutil.rmtree` for a
directory and `unlink(missing_ok=True)` otherwise both erase whatever
sits at the path, and a missing path is left untouched — `removeAt`. -/
def delete_entry (m : FileManager) (fs : Node) (entry : FsPath) : FileManager × Node :=
  if entry = parent entry then
    ({ m with status := "Нельзя удалить родительскую ссылку" }, fs)
  else
    ({ m with status := "Удалено: " ++ nameOf entry }, removeAt entry fs)

/-- `os.rename` as invoked by `Path.rename` (line 124): the source must
exist; an existing target or a missing target parent is an error
(collision behaviour surfaced to the caller, not swallowed). -/
def renameFS (fs : Node) (src dst : FsPath) : Except String Node :=
  match lookup src fs with
  | none => .error ("No such file or directory: " ++ pathStr src)
  | some n =>
    if (lookup dst fs).isSome then .error ("File exists: " ++ pathStr dst)
    else
      match insertNew false dst (removeAt src fs) n with
      | none => .error ("No such file or directory: " ++ pathStr (parent dst))
      | some fsNew => .ok fsNew

/-- `FileManager.rename_entry` (line 115): sentinel guard, prompt,
empty-name cancellation, then `entry.rename(entry.with_name(new_name))`. -/
def rename_entry (m : FileManager) (fs : Node) (entry : FsPath) (raw : String) :
    Except String (FileManager × Node) :=
  if entry = parent entry then .ok ({ m with status := "Нечего переименовывать" }, fs)
  else
    let new_name := prompt raw
    if new_name = "" then .ok ({ m with status := "Переименование отменено" }, fs)
    else
      let target := parent entry ++ [new_name]
      match renameFS fs entry target with
      | .error e => .error e
      | .ok fsNew => .ok ({ m with status := "Переименовано в " ++ new_name }, fsNew)

/-- `FileManager.make_dir` (line 127): prompt, empty-name cancellation,
then `target.mkdir(parents=False, exist_ok=False)`. -/
def make_dir (m : FileManager) (fs : Node) (raw : String) :
    Except String (FileManager × Node) :=
  let name := prompt raw
  if name = "" then .ok ({ m with status := "Создание каталога отменено" }, fs)
  else
    let target := (activePane m).path ++ [name]
    match insertNew false target fs (.dir []) with
    | none => .error ("mkdir failed: " ++ pathStr target)
    | some fsNew => .ok ({ m with status := "Создан каталог: " ++ name }, fsNew)

/-- The keys the event loop distinguishes (lines 177–202). -/
inductive Key where
  | q | esc | tab | up | down | enter | f5 | f6 | f7 | f8 | f2 | r | other
deriving DecidableEq

/-- Line 204: `self.status = f"Ошибка: {exc}"`. -/
def errStr (e : String) : String := "Ошибка: " ++ e

/-- The body of the `try:` block of `FileManager.run` (lines 177–202):
dispatch one key to its handler.  `.error` is an exception escaping the
handler.  The quit keys return before any handler acts, so here they are
a no-op. -/
def dispatch (m : FileManager) (fs : Node) (key : Key) (env : Env) :
    Except String (FileManager × Node) :=
  let pane := activePane m
  let entry := pane.selected
  match key with
  | .q | .esc => .ok (m, fs)
  | .tab => .ok ({ m with active := other_index m }, fs)
  | .up => .ok (setActivePane m { pane with cursor := upCursor pane.cursor }, fs)
  | .down =>
    .ok (setActivePane m { pane with cursor := downCursor pane.entries.length pane.cursor }, fs)
  | .enter => .ok (open_entry m fs env entry, fs)
  | .f5 =>
    match copy_or_move fs entry (m.panes (other_index m)).path false with
    | (.ok target, fsNew) => .ok ({ m with status := "Скопировано: " ++ nameOf target }, fsNew)
    | (.error e, _) => .error e
  | .f6 =>
    match copy_or_move fs entry (m.panes (other_index m)).path true with
    | (.ok target, fsNew) => .ok ({ m with status := "Перемещено: " ++ nameOf target }, fsNew)
    | (.error e, _) => .error e
  | .f8 => .ok (delete_entry m fs entry)
  | .f7 => make_dir m fs env.promptRaw
  | .f2 => rename_entry m fs entry env.promptRaw
  | .r => (FileManager.refresh fs m).map (fun m2 => ({ m2 with status := "Обновлено" }, fs))
  | .other => .ok (m, fs)

/-- One iteration of the event loop of `FileManager.run` (lines
163–206): the quit keys leave the loop; otherwise the dispatched handler
runs inside `try:`, an escaped exception is converted to a status
message at this controller boundary, and the unconditional
`self.refresh()` (line 206, outside the `try:`) runs last.  `.ok none`
is a normal quit, `.ok (some ...)` continues the loop, and `.error` is
an exception escaping `run` itself. -/
def step (m : FileManager) (fs : Node) (key : Key) (env : Env) :
    Except String (Option (FileManager × Node)) :=
  if key = Key.q ∨ key = Key.esc then .ok none
  else
    let next :=
      match dispatch m fs key env with
      | .ok r => r
      | .error e => ({ m with status := errStr e }, fs)
    match FileManager.refresh next.2 next.1 with
    | .ok m2 => .ok (some (m2, next.2))
    | .error e => .error e

/-- Sample filesystem for concrete runs: `/left/a.txt` (content
`hello`), `/left/folder/x.txt`, `/right/a.txt`, `/home/user`. -/
def fsSample : Node :=
  .dir [("left", .dir [("a.txt", .file "hello"), ("folder", .dir [("x.txt", .file "x")])]),
        ("right", .dir [("a.txt", .file "existing")]),
        ("home", .dir [("user", .dir [])])]

/-- Left pane of the sample manager, listing `/left`, cursor on
`a.txt`. -/
def paneL : PaneState :=
  { path := ["left"], cursor := 2, entries := [[], ["left", "folder"], ["left", "a.txt"]] }

/-- Right pane of the sample manager, listing `/right`. -/
def paneR : PaneState :=
  { path := ["right"], cursor := 0, entries := [[], ["right", "a.txt"]] }

def mgrSample : FileManager :=
  { panes := fun i => if i = 0 then paneL else paneR, active := 0, status := "" }

def envSample : Env := { promptRaw := "", openOk := true, openErr := "" }

/-- The result of refreshing a fresh pane on `/left` over `fsSample`. -/
def paneLRefreshed : PaneState :=
  { path := ["left"], cursor := 0, entries := [[], ["left", "folder"], ["left", "a.txt"]] }

/-- `fsSample` after moving `/left/folder` into `/right`. -/
def fsMoved : Node :=
  .dir [("left", .dir [("a.txt", .file "hello")]),
        ("right", .dir [("a.txt", .file "existing"), ("folder", .dir [("x.txt", .file "x")])]),
        ("home", .dir [("user", .dir [])])]

/-- A root with the two directories `/a` and `/b`. -/
def fsTwoDirs : Node := .dir [("a", .dir []), ("b", .dir [])]

/-- A manager over `fsTwoDirs`: the active pane lists `/` with the
cursor on `/a`, the other pane sits inside `/a`. -/
def mgrDeleteOther : FileManager :=
  { panes := fun i =>
      if i = 0 then { path := [], cursor := 1, entries := [[], ["a"], ["b"]] }
      else { path := ["a"], cursor := 0, entries := [[]] },
    active := 0,
    status := "" }

theorem lookupChild_append (cs ds : List (String × Node)) (b : String) :
    lookupChild (cs ++ ds) b =
      match lookupChild cs b with
      | some c => some c
      | none => lookupChild ds b := by
  induction cs with
  | nil => simp [lookupChild]
  | cons e rest ih =>
    obtain ⟨a, n⟩ := e
    by_cases h : a = b <;> simp [lookupChild, h, ih]

theorem lookupChild_setChild (cs : List (String × Node)) (a : String) (x : Node) (b : String) :
    lookupChild (setChild cs a x) b = if b = a then some x else lookupChild cs b := by
  induction cs with
  | nil =>
    simp only [setChild, lookupChild]
    by_cases h : a = b
    · subst h; simp
    · rw [if_neg h, if_neg (fun h2 : b = a => h h2.symm)]
  | cons e rest ih =>
    obtain ⟨c, n⟩ := e
    by_cases hca : c = a
    · subst hca
      simp only [setChild, if_pos rfl, lookupChild]
      by_cases hcb : c = b
      · subst hcb; simp
      · have hbc : ¬ b = c := fun h2 => hcb h2.symm
        simp [hcb, hbc]
    · simp only [setChild, if_neg hca, lookupChild]
      by_cases hcb : c = b
      · subst hcb
        simp [lookupChild, hca]
      · simp [hcb, ih]

theorem lookupChild_removeChild_self (cs : List (String × Node)) (a : String) :
    lookupChild (removeChild cs a) a = none := by
  induction cs with
  | nil => simp [removeChild, lookupChild]
  | cons e rest ih =>
    obtain ⟨c, n⟩ := e
    by_cases h : c = a
    · simpa [removeChild, List.filter_cons, h] using ih
    · simpa [removeChild, List.filter_cons, bne_iff_ne, h, lookupChild] using ih

theorem lookupChild_removeChild_other (cs : List (String × Node)) (a b : String) (h : a ≠ b) :
    lookupChild (removeChild cs b) a = lookupChild cs a := by
  induction cs with
  | nil => simp [removeChild, lookupChild]
  | cons e rest ih =>
    obtain ⟨c, n⟩ := e
    by_cases hcb : c = b
    · subst hcb
      have hca : ¬ c = a := fun h2 => h h2.symm
      simpa [removeChild, List.filter_cons, lookupChild, hca] using ih
    · by_cases hca : c = a
      · subst hca
        simp [removeChild, List.filter_cons, bne_iff_ne, hcb, lookupChild]
      · simpa [removeChild, List.filter_cons, bne_iff_ne, hcb, lookupChild, hca] using ih


theorem lookupChild_snoc (cs : List (String × Node)) (a : String) (node : Node) (b : String) :
    lookupChild (cs ++ [(a, node)]) b =
      match lookupChild cs b with
      | some c => some c
      | none => if a = b then some node else none := by
  rw [lookupChild_append]
  cases lookupChild cs b <;> simp [lookupChild]

theorem lookup_insertNew_self (mk : Bool) (p : FsPath) (root node r : Node)
    (h : insertNew mk p root node = some r) : lookup p r = some node := by
  induction p generalizing root r with
  | nil => simp [insertNew] at h
  | cons a tl ih =>
    cases root with
    | file c => simp [insertNew] at h
    | dir cs =>
      cases tl with
      | nil =>
        simp only [insertNew] at h
        split at h
        · exact Option.noConfusion h
        · rename_i hlc
          obtain rfl := Option.some.inj h
          simp [lookup, lookupChild_snoc, hlc]
      | cons b rest =>
        simp only [insertNew] at h
        split at h
        · rename_i c hlc
          rw [Option.map_eq_some'] at h
          obtain ⟨cNew, hin, rfl⟩ := h
          have hred : lookup (a :: b :: rest) (Node.dir (setChild cs a cNew)) =
              lookup (b :: rest) cNew := by
            simp [lookup, lookupChild_setChild]
          rw [hred]
          exact ih c cNew hin
        · rename_i hlc
          split at h
          · rw [Option.map_eq_some'] at h
            obtain ⟨cNew, hin, rfl⟩ := h
            have hred : lookup (a :: b :: rest) (Node.dir (cs ++ [(a, cNew)])) =
                lookup (b :: rest) cNew := by
              simp [lookup, lookupChild_snoc, hlc]
            rw [hred]
            exact ih (.dir []) cNew hin
          · exact Option.noConfusion h

theorem lookup_insertNew_isSome (mk : Bool) (p q : FsPath) (root node r : Node)
    (h : insertNew mk p root node = some r) (hq : (lookup q root).isSome) :
    (lookup q r).isSome := by
  induction p generalizing q root r with
  | nil => simp [insertNew] at h
  | cons a tl ih =>
    cases root with
    | file c => simp [insertNew] at h
    | dir cs =>
      cases q with
      | nil => simp [lookup]
      | cons x qs =>
        simp only [lookup] at hq
        cases hlx : lookupChild cs x with
        | none => rw [hlx] at hq; simp at hq
        | some cx =>
          rw [hlx] at hq
          cases tl with
          | nil =>
            simp only [insertNew] at h
            split at h
            · exact Option.noConfusion h
            · rename_i hlc
              obtain rfl := Option.some.inj h
              have hxred : lookup (x :: qs) (Node.dir (cs ++ [(a, node)])) = lookup qs cx := by
                simp [lookup, lookupChild_snoc, hlx]
              rw [hxred]
              exact hq
          | cons b rest =>
            simp only [insertNew] at h
            split at h
            · rename_i c hlc
              rw [Option.map_eq_some'] at h
              obtain ⟨cNew, hin, rfl⟩ := h
              by_cases hxa : x = a
              · subst hxa
                rw [hlx] at hlc
                obtain rfl := Option.some.inj hlc
                have hxred : lookup (x :: qs) (Node.dir (setChild cs x cNew)) =
                    lookup qs cNew := by
                  simp [lookup, lookupChild_setChild]
                rw [hxred]
                exact ih qs cx cNew hin hq
              · have hxred : lookup (x :: qs) (Node.dir (setChild cs a cNew)) =
                    lookup qs cx := by
                  simp [lookup, lookupChild_setChild, hxa, hlx]
                rw [hxred]
                exact hq
            · rename_i hlc
              split at h
              · rw [Option.map_eq_some'] at h
                obtain ⟨cNew, hin, rfl⟩ := h
                have hxa : ¬ a = x := by
                  intro hx; rw [hx, hlx] at hlc; exact Option.noConfusion hlc
                have hxred : lookup (x :: qs) (Node.dir (cs ++ [(a, cNew)])) =
                    lookup qs cx := by
                  simp [lookup, lookupChild_snoc, hlx]
                rw [hxred]
                exact hq
              · exact Option.noConfusion h

theorem isSome_lookup_of_pfx (p q : FsPath) (root : Node) (h : isPfx p q = true)
    (hq : (lookup q root).isSome) : (lookup p root).isSome := by
  induction p generalizing q root with
  | nil => simp [lookup]
  | cons a tl ih =>
    cases q with
    | nil => simp [isPfx] at h
    | cons b qs =>
      simp only [isPfx, Bool.and_eq_true, beq_iff_eq] at h
      obtain ⟨hab, htl⟩ := h
      subst hab
      cases root with
      | file c => simp [lookup] at hq
      | dir cs =>
        simp only [lookup] at hq ⊢
        cases hlc : lookupChild cs a with
        | none => rw [hlc] at hq; simp at hq
        | some c =>
          rw [hlc] at hq
          exact ih qs c htl hq

theorem lookup_insertNew_incomp (mk : Bool) (p q : FsPath) (root node r : Node)
    (h : insertNew mk p root node = some r) (hpq : isPfx p q = false)
    (hqp : isPfx q p = false) : lookup q r = lookup q root := by
  induction p generalizing q root r with
  | nil => simp [insertNew] at h
  | cons a tl ih =>
    cases root with
    | file c => simp [insertNew] at h
    | dir cs =>
      cases q with
      | nil => simp [isPfx] at hqp
      | cons x qs =>
        cases tl with
        | nil =>
          simp only [insertNew] at h
          split at h
          · exact Option.noConfusion h
          · rename_i hlc
            obtain rfl := Option.some.inj h
            by_cases hxa : x = a
            · subst hxa
              simp [isPfx] at hpq
            · have hax : ¬ a = x := fun h2 => hxa h2.symm
              simp only [lookup, lookupChild_snoc]
              cases hlx : lookupChild cs x <;> simp [hax]
        | cons b rest =>
          simp only [insertNew] at h
          split at h
          · rename_i c hlc
            rw [Option.map_eq_some'] at h
            obtain ⟨cNew, hin, rfl⟩ := h
            by_cases hxa : x = a
            · subst hxa
              have hpq2 : isPfx (b :: rest) qs = false := by simpa [isPfx] using hpq
              have hqp2 : isPfx qs (b :: rest) = false := by simpa [isPfx] using hqp
              simp only [lookup, lookupChild_setChild, if_pos rfl, hlc]
              exact ih qs c cNew hin hpq2 hqp2
            · simp only [lookup, lookupChild_setChild, if_neg hxa]
          · rename_i hlc
            split at h
            · rw [Option.map_eq_some'] at h
              obtain ⟨cNew, hin, rfl⟩ := h
              by_cases hxa : x = a
              · subst hxa
                have hpq2 : isPfx (b :: rest) qs = false := by simpa [isPfx] using hpq
                have hqp2 : isPfx qs (b :: rest) = false := by simpa [isPfx] using hqp
                have hih := ih qs (.dir []) cNew hin hpq2 hqp2
                cases qs with
                | nil => simp [isPfx] at hqp2
                | cons y qs2 =>
                  have hnone : lookup (y :: qs2) cNew = none := by
                    rw [hih]; simp [lookup, lookupChild]
                  simp [lookup, lookupChild_snoc, hlc, hnone]
              · have hax : ¬ a = x := fun h2 => hxa h2.symm
                simp only [lookup, lookupChild_snoc]
                cases hlx : lookupChild cs x <;> simp [hax]
            · exact Option.noConfusion h

theorem lookup_removeAt_self (p : FsPath) (root : Node) (h : p ≠ []) :
    lookup p (removeAt p root) = none := by
  induction p generalizing root with
  | nil => exact absurd rfl h
  | cons a tl ih =>
    cases root with
    | file c => cases tl <;> simp [removeAt, lookup]
    | dir cs =>
      cases tl with
      | nil => simp [removeAt, lookup, lookupChild_removeChild_self]
      | cons b rest =>
        simp only [removeAt]
        cases hlc : lookupChild cs a with
        | some c =>
          simp only [lookup, lookupChild_setChild, if_pos rfl]
          exact ih c (by simp)
        | none => simp [lookup, hlc]

theorem charsLe_cons_iff (x y : Char) (as bs : List Char) :
    charsLe (x :: as) (y :: bs) = true ↔
      x.toNat < y.toNat ∨ (x.toNat = y.toNat ∧ charsLe as bs = true) := by
  simp only [charsLe]
  by_cases h1 : x.toNat < y.toNat
  · simp [h1]
  · by_cases h2 : y.toNat < x.toNat
    · simp [h1, h2]
      omega
    · have h3 : ¬ x.toNat = y.toNat → False := by omega
      simp [h1, h2]
      omega

theorem charsLe_trans (a b c : List Char) (h1 : charsLe a b = true) (h2 : charsLe b c = true) :
    charsLe a c = true := by
  induction a generalizing b c with
  | nil => rfl
  | cons x as ih =>
    cases b with
    | nil => simp [charsLe] at h1
    | cons y bs =>
      cases c with
      | nil => simp [charsLe] at h2
      | cons z cs =>
        rw [charsLe_cons_iff] at h1 h2 ⊢
        rcases h1 with h1 | ⟨h1, h1b⟩ <;> rcases h2 with h2 | ⟨h2, h2b⟩
        · left; omega
        · left; omega
        · left; omega
        · exact Or.inr ⟨by omega, ih bs cs h1b h2b⟩

theorem charsLe_total (a b : List Char) : charsLe a b = true ∨ charsLe b a = true := by
  induction a generalizing b with
  | nil => exact Or.inl rfl
  | cons x as ih =>
    cases b with
    | nil => exact Or.inr rfl
    | cons y bs =>
      rw [charsLe_cons_iff, charsLe_cons_iff]
      rcases Nat.lt_trichotomy x.toNat y.toNat with h | h | h
      · exact Or.inl (Or.inl h)
      · rcases ih bs with hh | hh
        · exact Or.inl (Or.inr ⟨h, hh⟩)
        · exact Or.inr (Or.inr ⟨h.symm, hh⟩)
      · exact Or.inr (Or.inl h)

theorem keyLe_trans (a b c : Bool × String) (h1 : keyLe a b = true) (h2 : keyLe b c = true) :
    keyLe a c = true := by
  obtain ⟨a1, a2⟩ := a
  obtain ⟨b1, b2⟩ := b
  obtain ⟨c1, c2⟩ := c
  simp only [keyLe] at h1 h2 ⊢
  cases a1 <;> cases b1 <;> cases c1 <;> simp_all [strLe]
  · exact charsLe_trans _ _ _ h1 h2
  · exact charsLe_trans _ _ _ h1 h2

theorem keyLe_total (a b : Bool × String) : keyLe a b = true ∨ keyLe b a = true := by
  obtain ⟨a1, a2⟩ := a
  obtain ⟨b1, b2⟩ := b
  cases a1 <;> cases b1 <;> simp [keyLe, strLe]
  · exact charsLe_total _ _
  · exact charsLe_total _ _

theorem filemode_length (mode : Nat) : (filemode mode).length = 10 := by
  show (filemodeTable.map (filemodeChar mode)).length = 10
  rw [List.length_map]
  rfl

theorem rightAlign_length (w : Nat) (s : String) :
    (rightAlign w s).length = (w - s.length) + s.length := by
  show (String.mk (List.replicate (w - s.length) ' ') ++ s).length = _
  rw [String.length_append]
  congr 1
  show (List.replicate (w - s.length) ' ').length = _
  rw [List.length_replicate]

/-- **C1** (corrected): formatting an entry yields exactly the literal
parent marker `"[..]"` — and nothing else — precisely when the entry's
path equals its own parent, and this holds for every filesystem state
(any `is_dir`/`stat` oracle).  The pane sentinel is `pane.path.parent`,
so it is rendered as the marker exactly when the pane directory is the
root or a direct child of the root; for deeper pane directories the
sentinel is formatted like an ordinary entry. -/
theorem format_entry_sentinel_iff (isDirQ : FsPath → Bool) (statQ : FsPath → Option StatInfo)
    (s : FsPath) : format_entry isDirQ statQ s = "[..]" ↔ s = parent s := by
  constructor
  · intro h
    by_contra hne
    rw [format_entry, if_neg hne] at h
    cases hstat : statQ s with
    | some info =>
      simp only [hstat] at h
      have hlen := congrArg String.length h
      have hsp : (" " : String).length = 1 := rfl
      have hbr : ("[..]" : String).length = 4 := rfl
      simp only [String.length_append, filemode_length, rightAlign_length, hsp, hbr] at hlen
      omega
    | none =>
      simp only [hstat] at h
      have hlen := congrArg String.length h
      have hsp : (" " : String).length = 1 := rfl
      have hq : ("?" : String).length = 1 := rfl
      have hm : ("??????????" : String).length = 10 := rfl
      have hbr : ("[..]" : String).length = 4 := rfl
      simp only [String.length_append, rightAlign_length, hsp, hq, hm, hbr] at hlen
      omega
  · intro h
    rw [format_entry, if_pos h]

/-- **C1 counterexample**: for the pane directory `/home/user` the
listing's sentinel (index 0) is `/home`, and formatting `/home` does not
yield `"[..]"` (shown here with an oracle where every stat fails), so
the claimed property fails for pane directories of depth ≥ 2. -/
theorem format_entry_sentinel_depth2_cex :
    (PaneState.refresh fsSample { path := ["home", "user"] }).map (fun p => p.entries.head?) =
      .ok (some (parent ["home", "user"])) ∧
    format_entry (fun _ => true) (fun _ => none) (parent ["home", "user"]) ≠ "[..]" := by
  constructor
  · rfl
  · decide

/-- **C2** (corrected): `delete_entry` is a guarded no-op — filesystem
untouched, only a status message — exactly on entries whose path equals
its own parent.  The pane sentinel is `pane.path.parent`, so the
sentinel is protected only when the pane directory is the root or a
direct child of the root. -/
theorem delete_entry_sentinel_guard (m : FileManager) (fs : Node) (s : FsPath)
    (h : s = parent s) :
    delete_entry m fs s = ({ m with status := "Нельзя удалить родительскую ссылку" }, fs) := by
  rw [delete_entry, if_pos h]

theorem delete_entry_sentinel_guard_witness :
    (([] : FsPath) = parent []) ∧
    delete_entry mgrSample fsSample [] =
      ({ mgrSample with status := "Нельзя удалить родительскую ссылку" }, fsSample) :=
  ⟨rfl, delete_entry_sentinel_guard mgrSample fsSample [] rfl⟩

/-- **C2 counterexample**: for the pane directory `/home/user` the
sentinel is `/home`; deleting it is *not* a no-op — the directory
`/home` is removed from the filesystem and the status reports a
successful deletion. -/
theorem delete_entry_sentinel_depth2_cex :
    parent ["home", "user"] = ["home"] ∧
    lookup ["home"] (delete_entry mgrSample fsSample (parent ["home", "user"])).2 = none ∧
    (lookup ["home"] fsSample).isSome = true ∧
    (delete_entry mgrSample fsSample (parent ["home", "user"])).1.status = "Удалено: home" :=
  ⟨rfl, rfl, rfl, rfl⟩

/-- **C4**: when `dst_dir / src.name` already exists, `copy_or_move`
raises `FileExistsError` (for any `move` flag) and performs no
filesystem mutation: the existence check precedes every mutating step. -/
theorem copy_or_move_target_exists_noop (fs : Node) (src dst_dir : FsPath) (move : Bool)
    (h : (lookup (dst_dir ++ [nameOf src]) fs).isSome = true) :
    copy_or_move fs src dst_dir move =
      (.error ("Destination already exists: " ++ pathStr (dst_dir ++ [nameOf src])), fs) := by
  simp [copy_or_move, h]

theorem copy_or_move_target_exists_noop_witness :
    (lookup (["right"] ++ [nameOf ["left", "a.txt"]]) fsSample).isSome = true ∧
    copy_or_move fsSample ["left", "a.txt"] ["right"] false =
      (.error ("Destination already exists: " ++ pathStr (["right"] ++ [nameOf ["left", "a.txt"]])),
        fsSample) :=
  ⟨rfl, copy_or_move_target_exists_noop fsSample ["left", "a.txt"] ["right"] false rfl⟩

/-- **C7**: with a non-empty listing and a cursor in range, the up
transition `max(0, c-1)` and the down transition `min(len-1, c+1)` stay
in range, a down event at the last index leaves the cursor unchanged,
and the refresh clamp restores the invariant whenever the new listing is
non-empty. -/
theorem cursor_clamp_invariant (n c mlen : Int) (h0 : 0 ≤ c) (h1 : c < n) :
    (0 ≤ upCursor c ∧ upCursor c < n) ∧
    (0 ≤ downCursor n c ∧ downCursor n c < n) ∧
    (c = n - 1 → downCursor n c = c) ∧
    (0 < mlen → 0 ≤ clampCursor mlen c ∧ clampCursor mlen c < mlen) := by
  simp only [upCursor, downCursor, clampCursor]
  refine ⟨⟨?_, ?_⟩, ⟨?_, ?_⟩, fun hlast => ?_, fun hm => ⟨?_, ?_⟩⟩ <;> omega

theorem cursor_clamp_invariant_witness :
    ((0 : Int) ≤ 2 ∧ (2 : Int) < 3) ∧
    ((0 ≤ upCursor 2 ∧ upCursor 2 < 3) ∧
     (0 ≤ downCursor 3 2 ∧ downCursor 3 2 < 3) ∧
     ((2 : Int) = 3 - 1 → downCursor 3 2 = 2) ∧
     ((0 : Int) < 1 → 0 ≤ clampCursor 1 2 ∧ clampCursor 1 2 < 1)) :=
  ⟨⟨by decide, by decide⟩, cursor_clamp_invariant 3 2 1 (by decide) (by decide)⟩

/-- **C8** (corrected, stat-failure half): formatting never fails (it
is a total function for every oracle), and on a stat failure of a
non-sentinel entry it degrades to the placeholder line: the
ten-character `?` mode string, `?` right aligned in the size column and
`?` for the time, followed by the entry name.  Listing failures, by
contrast, are *not* contained — see the counterexample below: an
`OSError` from `iterdir` in the unconditional post-event refresh (line
206, outside the `try:`) propagates out of `run`. -/
theorem format_entry_stat_failure_placeholders (isDirQ : FsPath → Bool)
    (statQ : FsPath → Option StatInfo) (p : FsPath) (hp : ¬ p = parent p)
    (hstat : statQ p = none) :
    format_entry isDirQ statQ p =
      "??????????" ++ " " ++ rightAlign 8 "?" ++ " " ++ "?" ++ " " ++
        (nameOf p ++ (if isDirQ p then "/" else "")) ∧
    ("??????????" : String).length = 10 := by
  refine ⟨?_, rfl⟩
  rw [format_entry, if_neg hp]
  simp only [hstat]

theorem format_entry_stat_failure_placeholders_witness :
    (¬ (["x"] : FsPath) = parent ["x"]) ∧
    ((fun _ => (none : Option StatInfo)) (["x"] : FsPath) = none) ∧
    (format_entry (fun _ => false) (fun _ => none) ["x"] =
      "??????????" ++ " " ++ rightAlign 8 "?" ++ " " ++ "?" ++ " " ++
        (nameOf ["x"] ++ (if (fun _ : FsPath => false) ["x"] then "/" else "")) ∧
     ("??????????" : String).length = 10) :=
  ⟨by decide, rfl,
    format_entry_stat_failure_placeholders (fun _ => false) (fun _ => none) ["x"]
      (by decide) rfl⟩

/-- **C9**: invoking rename with an empty new name performs no
filesystem change and reports a no-op status: the cancellation message
for any real entry, and the sentinel message for the parent sentinel
(which never reads a name at all); in both cases no error is raised. -/
theorem rename_entry_empty_name_noop (m : FileManager) (fs : Node) (entry : FsPath)
    (raw : String) (h : strip raw = "") :
    rename_entry m fs entry raw =
      .ok ((if entry = parent entry then { m with status := "Нечего переименовывать" }
            else { m with status := "Переименование отменено" }), fs) := by
  by_cases hs : entry = parent entry
  · rw [rename_entry, if_pos hs, if_pos hs]
  · rw [rename_entry, if_neg hs, if_neg hs]
    simp [prompt, h]

theorem rename_entry_empty_name_noop_witness :
    strip "" = "" ∧
    rename_entry mgrSample fsSample ["left", "a.txt"] "" =
      .ok ((if (["left", "a.txt"] : FsPath) = parent ["left", "a.txt"]
            then { mgrSample with status := "Нечего переименовывать" }
            else { mgrSample with status := "Переименование отменено" }), fsSample) :=
  ⟨rfl, rename_entry_empty_name_noop mgrSample fsSample ["left", "a.txt"] "" rfl⟩

/-- **C10**: prompt text is stripped of surrounding whitespace before
use, so whitespace-only input behaves exactly like empty input for both
rename and make-directory: the same result as the empty string, and for
make-directory explicitly a cancellation with no filesystem change. -/
theorem prompt_whitespace_cancels (m : FileManager) (fs : Node) (entry : FsPath) (raw : String)
    (h : strip raw = "") :
    make_dir m fs raw = make_dir m fs "" ∧
    rename_entry m fs entry raw = rename_entry m fs entry "" ∧
    make_dir m fs raw = .ok ({ m with status := "Создание каталога отменено" }, fs) := by
  have h0 : prompt raw = prompt "" := by rw [prompt, prompt, h]; rfl
  refine ⟨?_, ?_, ?_⟩
  · rw [make_dir, make_dir, h0]
  · by_cases hs : entry = parent entry
    · rw [rename_entry, rename_entry, if_pos hs, if_pos hs]
    · rw [rename_entry, rename_entry, if_neg hs, if_neg hs, h0]
  · rw [make_dir, prompt, h]
    simp

theorem prompt_whitespace_cancels_witness :
    strip " \t " = "" ∧
    (make_dir mgrSample fsSample " \t " = make_dir mgrSample fsSample "" ∧
     rename_entry mgrSample fsSample ["left", "a.txt"] " \t " =
       rename_entry mgrSample fsSample ["left", "a.txt"] "" ∧
     make_dir mgrSample fsSample " \t " =
       .ok ({ mgrSample with status := "Создание каталога отменено" }, fsSample)) :=
  ⟨rfl, prompt_whitespace_cancels mgrSample fsSample ["left", "a.txt"] " \t " rfl⟩

theorem refresh_preserves_status (fs : Node) (m m2 : FileManager)
    (h : FileManager.refresh fs m = .ok m2) : m2.status = m.status := by
  rw [FileManager.refresh] at h
  cases h0 : PaneState.refresh fs (m.panes 0) with
  | error e =>
    rw [h0] at h
    simp [Bind.bind, Except.bind] at h
  | ok p0 =>
    rw [h0] at h
    cases h1 : PaneState.refresh fs (m.panes 1) with
    | error e =>
      rw [h1] at h
      simp [Bind.bind, Except.bind] at h
    | ok p1 =>
      rw [h1] at h
      simp only [Bind.bind, Except.bind, pure, Except.pure, Except.ok.injEq] at h
      rw [← h]

/-- **C3**: any exception a File Operation handler raises while an input
event is dispatched is caught at the controller boundary of the event
loop, converted into the status message `"Ошибка: ..."`, and the loop
continues (provided, as always, the unconditional post-event refresh
itself succeeds — that refresh runs outside the `try:` and is not a File
Operation). -/
theorem run_catches_fileop_errors (m : FileManager) (fs : Node) (key : Key) (env : Env)
    (e : String) (hdisp : dispatch m fs key env = .error e)
    (href : ∃ m2, FileManager.refresh fs { m with status := errStr e } = .ok m2) :
    ∃ m2, step m fs key env = .ok (some (m2, fs)) ∧ m2.status = errStr e := by
  obtain ⟨m2, href⟩ := href
  have hstatus : m2.status = errStr e := refresh_preserves_status fs _ m2 href
  refine ⟨m2, ?_, hstatus⟩
  have hkey : ¬ (key = Key.q ∨ key = Key.esc) := by
    rintro (rfl | rfl) <;> simp [dispatch] at hdisp
  rw [step, if_neg hkey]
  simp only [hdisp, href]

theorem run_catches_fileop_errors_witness :
    dispatch mgrSample fsSample Key.f5 envSample =
      .error "Destination already exists: /right/a.txt" ∧
    ∃ m2, step mgrSample fsSample Key.f5 envSample = .ok (some (m2, fsSample)) ∧
      m2.status = errStr "Destination already exists: /right/a.txt" := by
  have hd : dispatch mgrSample fsSample Key.f5 envSample =
      .error "Destination already exists: /right/a.txt" := rfl
  exact ⟨hd, run_catches_fileop_errors mgrSample fsSample Key.f5 envSample _ hd ⟨_, rfl⟩⟩

/-- **C5**: whenever `copy_or_move` succeeds it returns
`dst_dir / src.name`, the source content is present at that destination;
a copy (`move = false`) never deletes the source, while a move
(`move = true`) leaves the source nonexistent. -/
theorem copy_or_move_success_spec (fs : Node) (src dst_dir : FsPath) (move : Bool)
    (dst : FsPath) (fs2 : Node)
    (h : copy_or_move fs src dst_dir move = (.ok dst, fs2)) :
    dst = dst_dir ++ [nameOf src] ∧
    lookup dst fs2 = lookup src fs ∧
    (move = false → (lookup src fs2).isSome = true) ∧
    (move = true → lookup src fs2 = none) := by
  simp only [copy_or_move] at h
  split at h
  · exact absurd h (by simp)
  · rename_i hex
    split at h
    · -- move branch
      rename_i hmv
      split at h
      · exact absurd h (by simp)
      · rename_i hpfx
        split at h
        · exact absurd h (by simp)
        · rename_i snap hsnap
          split at h
          · exact absurd h (by simp)
          · rename_i fsNew hins
            rw [Prod.mk.injEq, Except.ok.injEq] at h
            obtain ⟨rfl, rfl⟩ := h
            have hsome : (lookup src fs).isSome = true := by rw [hsnap]; rfl
            have hpfx2 : isPfx src (dst_dir ++ [nameOf src]) = false := by
              simpa using hpfx
            have hsrcne : src ≠ [] := by
              intro hnil
              rw [hnil] at hpfx2
              exact Bool.noConfusion hpfx2
            have hdnot : isPfx (dst_dir ++ [nameOf src]) src = false := by
              by_contra hcon
              have hcon2 : isPfx (dst_dir ++ [nameOf src]) src = true := by
                simpa using hcon
              exact hex (isSome_lookup_of_pfx _ src fs hcon2 hsome)
            refine ⟨rfl, ?_, ?_, fun _ => ?_⟩
            · rw [lookup_insertNew_self false _ _ snap fsNew hins, hsnap]
            · intro hmf
              rw [hmf] at hmv
              exact Bool.noConfusion hmv
            · rw [lookup_insertNew_incomp false _ src _ snap fsNew hins hdnot hpfx2]
              exact lookup_removeAt_self src fs hsrcne
    · -- copy branch
      rename_i hmv
      split at h
      · exact absurd h (by simp)
      · rename_i snap hsnap
        have hsome : (lookup src fs).isSome = true := by rw [hsnap]; rfl
        split at h
        · -- snap is a directory: copytree
          rename_i cs0
          split at h
          · exact absurd h (by simp)
          · rename_i fsNew hins
            rw [Prod.mk.injEq, Except.ok.injEq] at h
            obtain ⟨rfl, rfl⟩ := h
            refine ⟨rfl, ?_, fun _ => ?_, fun hmt => ?_⟩
            · rw [lookup_insertNew_self true _ _ _ fsNew hins, hsnap]
            · exact lookup_insertNew_isSome true _ src fs _ fsNew hins hsome
            · exact absurd hmt hmv
        · -- snap is a file: copy2
          rename_i c0
          split at h
          · exact absurd h (by simp)
          · rename_i fsNew hins
            rw [Prod.mk.injEq, Except.ok.injEq] at h
            obtain ⟨rfl, rfl⟩ := h
            refine ⟨rfl, ?_, fun _ => ?_, fun hmt => ?_⟩
            · rw [lookup_insertNew_self false _ _ _ fsNew hins, hsnap]
            · exact lookup_insertNew_isSome false _ src fs _ fsNew hins hsome
            · exact absurd hmt hmv

theorem copy_or_move_success_spec_witness :
    copy_or_move fsSample ["left", "folder"] ["right"] true =
      (.ok ["right", "folder"], fsMoved) ∧
    ((["right", "folder"] : FsPath) = ["right"] ++ [nameOf ["left", "folder"]] ∧
     lookup ["right", "folder"] fsMoved = lookup ["left", "folder"] fsSample ∧
     (true = false → (lookup ["left", "folder"] fsMoved).isSome = true) ∧
     (true = true → lookup ["left", "folder"] fsMoved = none)) :=
  ⟨rfl, copy_or_move_success_spec fsSample ["left", "folder"] ["right"] true
    ["right", "folder"] fsMoved rfl⟩

/-- **C6**: a successful pane refresh of a readable directory places the
parent sentinel at index 0 of the listing, and the remaining entries are
sorted by the two-key rule — directories before files, case-insensitive
name ascending within each class — expressed as pairwise ordering under
the key `(is_file, name.lower())`. -/
theorem refresh_sentinel_first_sorted (fs : Node) (pane p2 : PaneState)
    (h : PaneState.refresh fs pane = .ok p2) :
    p2.entries.head? = some (parent pane.path) ∧
    List.Pairwise (fun a b => keyLe (entryKey fs a) (entryKey fs b) = true) p2.entries.tail := by
  rw [PaneState.refresh] at h
  split at h
  · rename_i cs heq
    obtain rfl := Except.ok.inj h
    refine ⟨rfl, ?_⟩
    haveI ht : IsTrans FsPath (fun a b => keyLe (entryKey fs a) (entryKey fs b) = true) :=
      ⟨fun a b c => keyLe_trans _ _ _⟩
    haveI hto : IsTotal FsPath (fun a b => keyLe (entryKey fs a) (entryKey fs b) = true) :=
      ⟨fun a b => keyLe_total _ _⟩
    exact List.sorted_insertionSort _ _
  · exact Except.noConfusion h

theorem refresh_sentinel_first_sorted_witness :
    PaneState.refresh fsSample { path := ["left"] } = .ok paneLRefreshed ∧
    paneLRefreshed.entries.head? = some (parent (["left"] : FsPath)) ∧
    List.Pairwise (fun a b => keyLe (entryKey fsSample a) (entryKey fsSample b) = true)
      paneLRefreshed.entries.tail := by
  have h : PaneState.refresh fsSample { path := ["left"] } = .ok paneLRefreshed := rfl
  have h2 := refresh_sentinel_first_sorted fsSample { path := ["left"] } paneLRefreshed h
  exact ⟨h, h2.1, h2.2⟩

/-- **C8 counterexample**: a listing failure does abort the event loop.
Starting from a consistent state (both panes refresh fine), one `F8`
event deletes `/a` — the other pane's current directory — and the
unconditional post-event refresh (line 206, outside the `try:`) then
raises while listing `/a`; the exception escapes `run` (`.error`), so
"never aborts the program" fails for listing failures. -/
theorem listing_failure_aborts_cex :
    (∃ m2, FileManager.refresh fsTwoDirs mgrDeleteOther = .ok m2) ∧
    step mgrDeleteOther fsTwoDirs Key.f8 envSample =
      .error "Cannot list directory: /a" :=
  ⟨⟨_, rfl⟩, rfl⟩
